import Mathlib

/-!
Verification development for the `db_to_adoc` DocBook-to-AsciiDoc tools
(`collate.py` and `convert.py`): a shallow embedding of the XML collation
and structural-rewrite logic, followed by theorems about the embedded
functions.

Machine strings are modelled over their character lists; Python regular
expressions are modelled by explicit leftmost/greedy searches; Python
exceptions (`KeyError`, `IndexError`, `AttributeError` on `None`) are
modelled with an `Except` error channel; an object attribute that a code
path may leave unset is modelled as an `Option` field.
-/

namespace DbToAdoc

/-- The ASCII part of Python's whitespace class, as used by `str.strip`
and by the regex class `\s`. -/
def pyIsSpace (c : Char) : Bool :=
  c == ' ' || c == '\t' || c == '\n' || c == '\r' || c == '\x0b' || c == '\x0c'

/-- Python `str.strip()`. -/
def pyStrip (s : String) : String :=
  String.mk (((s.toList.dropWhile pyIsSpace).reverse.dropWhile pyIsSpace).reverse)

/-- Python `str.startswith(p)`. -/
def pyStartsWith (s p : String) : Bool := p.toList.isPrefixOf s.toList

/-- Python `str.endswith(p)`. -/
def pyEndsWith (s p : String) : Bool := p.toList.isSuffixOf s.toList

/-- Python slicing `s[n:]`. -/
def pyDrop (s : String) (n : Nat) : String := String.mk (s.toList.drop n)

/-- Python slicing `s[:-n]`. -/
def pyDropRight (s : String) (n : Nat) : String :=
  String.mk (s.toList.take (s.toList.length - n))

/-- Python `str.lower()` (ASCII). -/
def pyLower (s : String) : String := String.mk (s.toList.map Char.toLower)

/-- Python `"".join(l)`. -/
def pyJoin (l : List String) : String := l.foldl (fun a b => a ++ b) ("")

/-- Python `sep.join(l)`. -/
def pyIntercalate (sep : String) : List String → String
  | [] => ("")
  | s :: rest => rest.foldl (fun acc x => acc ++ sep ++ x) s

/-- The apostrophe character, used by the `xpointer` role pattern. -/
def squote : Char := Char.ofNat 39

/-- `noNewline cs a b` holds when none of the characters of `cs` at
positions `a, a+1, ..., b-1` is a newline: the regex atom `.` cannot
cross such a position. -/
def noNewline (cs : List Char) (a b : Nat) : Bool :=
  (List.range' a (b - a)).all (fun k => cs.getD k (' ') != '\n')

/-! ### The regex `(.+)(\[.+\])` under `re.match`

`re.match` anchors at the start only.  Group 1 (`.+`) is greedy, so
backtracking settles on the largest split index `i` at which group 2
(`\[.+\]`) can still match; group 2's inner `.+` is greedy, so its
closing `]` is the last one reachable without crossing a newline.  The
overall match need not reach the end of the string. -/

/-- Whether group 2 of `(.+)(\[.+\])` can end with its `]` at index `j`,
given that it starts at index `i` (where the `[` sits). -/
def nameArrayClose (cs : List Char) (i j : Nat) : Bool :=
  decide (i + 2 ≤ j) && (cs.getD j (' ') == ']') && noNewline cs (i + 1) j

/-- The greedy end index of group 2 starting at `i`, if group 2 matches. -/
def nameArrayCloseAt (cs : List Char) (i : Nat) : Option Nat :=
  let j := Nat.findGreatest (fun j => nameArrayClose cs i j = true) (cs.length - 1)
  if nameArrayClose cs i j then some j else none

/-- Whether the split between group 1 and group 2 can sit at index `i`:
group 1 is `cs[0:i]` (nonempty, newline-free), `cs[i] = '['`, and
group 2 finds a closing bracket. -/
def nameArraySplit (cs : List Char) (i : Nat) : Bool :=
  decide (1 ≤ i) && (cs.getD i (' ') == '[') && noNewline cs 0 i
    && (nameArrayCloseAt cs i).isSome

/-- `_re_name_array.match(s)` for `_re_name_array = re.compile(r"(.+)(\[.+\])")`:
returns `(group 1, group 2)` on a match. -/
def reNameArray (s : String) : Option (String × String) :=
  let cs := s.toList
  let i := Nat.findGreatest (fun i => nameArraySplit cs i = true) (cs.length - 1)
  if nameArraySplit cs i then
    match nameArrayCloseAt cs i with
    | some j => some (String.mk (cs.take i), String.mk ((cs.drop i).take (j + 1 - i)))
    | none => none
  else none

/-! ### The regex `\n\s*` under `re.sub(_, " ", s)` -/

/-- `re.sub("\n\s*", " ", s)` over the character list: each newline
together with the greedy whitespace run following it becomes a single
space, scanning left to right without overlap. -/
def reLineEndSubList : List Char → List Char
  | [] => []
  | c :: rest =>
    if c == '\n' then (' ') :: reLineEndSubList (rest.dropWhile pyIsSpace)
    else c :: reLineEndSubList rest
termination_by l => l.length
decreasing_by
  · simp only [List.length_cons]
    have h := (List.dropWhile_suffix (l := rest) pyIsSpace).length_le
    omega
  · simp

/-- String version of `re.sub("\n\s*", " ", s)`. -/
def reLineEndSub (s : String) : String := String.mk (reLineEndSubList s.toList)

/-! ### The regex `\@role\=\'(.+)\'` under `re.search`

`re.search` tries every start position from the left; at a given start
the literal `@role='` must match, then the greedy `.+` captures up to
the last apostrophe reachable without crossing a newline. -/

/-- The literal `@role='` as characters. -/
def roleLit : List Char := ['@', 'r', 'o', 'l', 'e', '='] ++ [squote]

/-- Whether the capture of `\@role\=\'(.+)\'` starting at `p` can close
with its final apostrophe at index `j`. -/
def roleClose (cs : List Char) (p j : Nat) : Bool :=
  decide (p + 8 ≤ j) && (cs.getD j (' ') == squote) && noNewline cs (p + 7) j

/-- Attempt the role pattern at start position `p`, returning the
captured group. -/
def roleMatchAt (cs : List Char) (p : Nat) : Option (List Char) :=
  if roleLit.isPrefixOf (cs.drop p) then
    let j := Nat.findGreatest (fun j => roleClose cs p j = true) (cs.length - 1)
    if roleClose cs p j then some ((cs.drop (p + 7)).take (j - (p + 7)))
    else none
  else none

/-- `_re_version_number.search(s)` for the pattern `\@role\=\'(.+)\'`:
the leftmost start position wins. -/
def reRoleSearch (s : String) : Option String :=
  ((List.range (s.toList.length)).findSome? (fun p => roleMatchAt s.toList p)).map
    (fun cap => String.mk cap)

/-! ### The XML tree model

An lxml element: tag (Clark notation), attributes (Clark-notation keys),
leading text (`.text`), child elements, trailing text (`.tail`).
Comments and processing instructions do not occur in the modelled
documents. -/

inductive Elem : Type where
  | mk : String → List (String × String) → Option String → List Elem → Option String → Elem
deriving Repr

def Elem.tag : Elem → String
  | .mk t _ _ _ _ => t

def Elem.attrs : Elem → List (String × String)
  | .mk _ a _ _ _ => a

def Elem.text : Elem → Option String
  | .mk _ _ tx _ _ => tx

def Elem.children : Elem → List Elem
  | .mk _ _ _ ch _ => ch

def Elem.tail : Elem → Option String
  | .mk _ _ _ _ tl => tl

/-- Replace the `.tail` of an element. -/
def Elem.withTail (e : Elem) (tl : Option String) : Elem :=
  .mk e.tag e.attrs e.text e.children tl

/-- A placeholder element (used only as a `getD` default). -/
def emptyElem : Elem := .mk ("") [] none [] none

/-- Clark notation for the DocBook namespace (the `_db` helper of
`convert.py` and the `db:` prefix of the XPaths). -/
def dbTag (s : String) : String :=
  ("\x7bhttp://docbook.org/ns/docbook\x7d") ++ s

/-- Clark notation for the XInclude namespace (the `xi:` prefix). -/
def xiTag (s : String) : String :=
  ("\x7bhttp://www.w3.org/2001/XInclude\x7d") ++ s

/-- The Clark-notation key of the `xml:id` attribute. -/
def xmlIdKey : String := ("\x7bhttp://www.w3.org/XML/1998/namespace\x7did")

/-- Attribute lookup (`node.attrib[k]`, absent key as `none`). -/
def attrOf (e : Elem) (k : String) : Option String :=
  (e.attrs.find? (fun p => p.1 == k)).map (fun p => p.2)

/-- The child elements with a given tag: the XPath child step `tag`. -/
def childrenTagged (e : Elem) (t : String) : List Elem :=
  e.children.filter (fun c => c.tag == t)

/-- One further child step applied to a node list (XPath `/tag`). -/
def chain (es : List Elem) (t : String) : List Elem :=
  es.flatMap (fun e => childrenTagged e t)

mutual

/-- All element descendants of `e` in document order, excluding `e`
itself: the XPath `descendant::*` axis. -/
def descendantsOf : Elem → List Elem
  | .mk _ _ _ ch _ => descendantsList ch

def descendantsList : List Elem → List Elem
  | [] => []
  | c :: rest => c :: (descendantsOf c ++ descendantsList rest)

end

/-- The XPath `descendant::tag` step. -/
def descendantsTagged (e : Elem) (t : String) : List Elem :=
  (descendantsOf e).filter (fun c => c.tag == t)

mutual

/-- All text nodes inside the subtree of `e`, in document order:
`e.text`, then for each child its subtree texts followed by its tail.
This is the XPath `descendant::text()` relative to `e` (the tail of `e`
itself belongs to `e`'s parent and is excluded). -/
def subtreeTexts : Elem → List String
  | .mk _ _ tx ch _ => tx.toList ++ subtreeTextsList ch

def subtreeTextsList : List Elem → List String
  | [] => []
  | c :: rest => (subtreeTexts c ++ c.tail.toList) ++ subtreeTextsList rest

end

/-- `"".join(node.itertext(with_tail=False))`. -/
def itertextNoTail (e : Elem) : String := pyJoin (subtreeTexts e)

/-- The text-node children of `e` (the XPath `tag/text()` final step):
`e.text` plus the tail of each child, in document order. -/
def textNodeChildren (e : Elem) : List String :=
  e.text.toList ++ e.children.filterMap Elem.tail

/-! ### Python exceptions

The exceptions that can escape the modelled code paths.  `attributeError`
models attribute access on `None` (such as `None.name()` or
`None.strip()`), carrying the attribute name. -/

inductive PyErr : Type where
  | indexError : PyErr
  | keyError : String → PyErr
  | attributeError : String → PyErr
deriving Repr, DecidableEq

/-! ### `collate.py`: `FuncDecl` -/

/-- The dictionary built by `FuncDecl._parse_parameter`.  The `name` and
`optional` fields are `Option`s because the void sentinel dictionary
`{"type": "void"}` carries neither key. -/
structure ParamRecord : Type where
  type : String
  name : Option String := none
  optional : Option Bool := none
deriving Repr, DecidableEq

/-- `FuncDecl._parse_parameter(paramdef)`.  The input is the `paramdef`
element; its `.text` is the raw type text and its first `db:parameter`
child (XPath `_xpath_func_paramname`) holds the parameter name.  An
`AttributeError` arises when the name node's `.text` is `None`
(`name.strip()` on `None`). -/
def parseParameter (paramdef : Elem) : Except PyErr ParamRecord :=
  match paramdef.text with
  | none => .ok { type := ("void") }
  | some rawType =>
    let type0 := pyStrip rawType
    let type1 := if pyStartsWith type0 ("[") then pyDrop type0 1 else type0
    let optional := pyStartsWith type0 ("[")
    match childrenTagged paramdef (dbTag ("parameter")) with
    | [] => .ok { type := type1, name := some (""), optional := some optional }
    | nameNode :: _ =>
      match nameNode.text with
      | none => .error (.attributeError ("strip"))
      | some rawName =>
        let name0 := pyStrip rawName
        let pair :=
          match reNameArray name0 with
          | some (g1, g2) => (g1, type1 ++ g2)
          | none => (name0, type1)
        let name1 := if pyEndsWith pair.1 ("]") then pyDropRight pair.1 1 else pair.1
        .ok { type := pair.2, name := some name1, optional := some optional }

/-- The data of a `FuncDecl`: function name, return value, parameters. -/
structure FuncDecl : Type where
  name : String
  returnValue : String
  params : List ParamRecord
deriving Repr, DecidableEq

/-- Parameter parsing for a whole prototype, in declaration order (the
list comprehension over `_xpath_func_parameters`). -/
def parseParameters : List Elem → Except PyErr (List ParamRecord)
  | [] => .ok []
  | p :: rest =>
    match parseParameter p with
    | .error e => .error e
    | .ok r =>
      match parseParameters rest with
      | .error e => .error e
      | .ok l => .ok (r :: l)

/-- `FuncDecl.__init__(funcprototype)`.  `func_node[0]` raises
`IndexError` when the prototype has no `db:funcdef` child, and
`self._return_value.strip()` raises `AttributeError` when the `funcdef`
has no direct text. -/
def mkFuncDecl (proto : Elem) : Except PyErr FuncDecl :=
  let name := pyStrip (pyJoin
    ((chain (childrenTagged proto (dbTag ("funcdef"))) (dbTag ("function"))).flatMap
      textNodeChildren))
  match childrenTagged proto (dbTag ("funcdef")) with
  | [] => .error .indexError
  | funcNode :: _ =>
    match funcNode.text with
    | none => .error (.attributeError ("strip"))
    | some rv =>
      match parseParameters (childrenTagged proto (dbTag ("paramdef"))) with
      | .error e => .error e
      | .ok params => .ok { name := name, returnValue := pyStrip rv, params := params }

/-! ### `collate.py`: `MainFile` -/

/-- `ignored_includes`: include names treated as boilerplate. -/
def ignoredIncludes : List String :=
  [("apiversion.xml"), ("apifunchead.xml"), ("funchead.xml"),
   ("version.xml"), ("varhead.xml")]

/-- `pathlib.PurePath(p).stem`: the final path component with its last
extension removed (a suffix exists when the rightmost dot of the name is
neither at position 0 nor in final position). -/
def pathStem (p : String) : String :=
  let name :=
    match Nat.findGreatest (fun i => p.toList.getD i (' ') == '/') (p.toList.length - 1),
      p.toList.getD (Nat.findGreatest (fun i => p.toList.getD i (' ') == '/')
        (p.toList.length - 1)) (' ') == '/' with
    | i, true => String.mk (p.toList.drop (i + 1))
    | _, false => p
  let cs := name.toList
  let i := Nat.findGreatest (fun i => cs.getD i (' ') == '.') (cs.length - 1)
  if (cs.getD i (' ') == '.') && decide (0 < i) && decide (i < cs.length - 1) then
    String.mk (cs.take i)
  else name

/-- The record built by `MainFile.__init__`.  Attributes that some code
paths leave unset are `Option`s; in particular `hdrFuncNames` is
`none` when `_hdr_func_names` was never assigned, `some none` when it
was assigned Python `None`, and `some (some l)` when assigned a list. -/
structure MainFile : Type where
  stem : String
  xmlRoot : Elem
  type : String
  adocPath : String
  abstractText : Option String
  hdrFuncNames : Option (Option (List String))
  funcs : Option (List FuncDecl)
  citations : List String
  includes : List String

/-- The XPath `db:refnamediv/db:refpurpose/descendant::text()`
(`_xpath_header_abstract_text`). -/
def headerAbstractTexts (root : Elem) : List String :=
  (chain (childrenTagged root (dbTag ("refnamediv"))) (dbTag ("refpurpose"))).flatMap
    subtreeTexts

/-- The XPath `db:refsynopsisdiv/db:funcsynopsis/db:funcprototype/db:funcdef/db:function/text()`
(`_xpath_header_function_names`). -/
def headerFunctionNames (root : Elem) : List String :=
  (chain (chain (chain (chain (childrenTagged root (dbTag ("refsynopsisdiv")))
    (dbTag ("funcsynopsis"))) (dbTag ("funcprototype"))) (dbTag ("funcdef")))
    (dbTag ("function"))).flatMap textNodeChildren

/-- `list(dict.fromkeys(l))`: first-occurrence deduplication. -/
def dedupKeepFirst (l : List String) : List String :=
  l.foldl (fun acc x => if acc.contains x then acc else acc ++ [x]) []

/-- `MainFile._process_header`: returns the `_abstract_text` and
`_hdr_func_names` attributes.  When the abstract XPath yields no text
the method logs and returns early, leaving both attributes unset.  (The
`except etree.XPathError` arm cannot fire in the model: the compiled
XPaths evaluate without error on element input.) -/
def processHeader (root : Elem) : Option String × Option (Option (List String)) :=
  let abstract := headerAbstractTexts root
  if abstract.length == 0 then (none, none)
  else
    let text := reLineEndSub (pyJoin abstract)
    let funcNames := headerFunctionNames root
    if decide (0 < funcNames.length) then
      (some text, some (some (dedupKeepFirst funcNames)))
    else (some text, some none)

/-- `MainFile._process_functions`: one `FuncDecl` per node of
`db:refsynopsisdiv/db:funcsynopsis/db:funcprototype`. -/
def processFunctions (root : Elem) : Except PyErr (List FuncDecl) :=
  let protos := chain (chain (childrenTagged root (dbTag ("refsynopsisdiv")))
    (dbTag ("funcsynopsis"))) (dbTag ("funcprototype"))
  let rec go : List Elem → Except PyErr (List FuncDecl)
    | [] => .ok []
    | p :: rest =>
      match mkFuncDecl p with
      | .error e => .error e
      | .ok d =>
        match go rest with
        | .error e => .error e
        | .ok l => .ok (d :: l)
  go protos

/-- `MainFile._process_citation`: join the `db:refentrytitle/text()`
fragments with a semicolon. -/
def processCitation (node : Elem) : String :=
  pyIntercalate (";")
    ((childrenTagged node (dbTag ("refentrytitle"))).flatMap textNodeChildren)

/-- `MainFile._process_citations` over `descendant::db:citerefentry`. -/
def processCitations (root : Elem) : List String :=
  (descendantsTagged root (dbTag ("citerefentry"))).map processCitation

/-- The body of `MainFile._process_includes`: each `xi:include` whose
`href` is not an ignored name contributes the stem of its `href`.  The
attribute access `node.attrib["href"]` raises `KeyError` when absent. -/
def includeStems : List Elem → Except PyErr (List String)
  | [] => .ok []
  | n :: rest =>
    match attrOf n ("href") with
    | none => .error (.keyError ("href"))
    | some href =>
      match includeStems rest with
      | .error e => .error e
      | .ok l =>
        .ok (if ignoredIncludes.contains href then l else pathStem href :: l)

/-- `MainFile._process_includes` over `descendant::xi:include`. -/
def processIncludes (root : Elem) : Except PyErr (List String) :=
  includeStems (descendantsTagged root (xiTag ("include")))

/-- `MainFile.__init__(file_path, xml_root)` (with `stem` standing for
`file_path.stem`): classification, header, prototypes, citations and
includes, in source order of possible exceptions. -/
def mkMainFile (stem : String) (root : Elem) : Except PyErr MainFile :=
  if root.tag == dbTag ("refentry") then
    match processFunctions root with
    | .error e => .error e
    | .ok funcs =>
      match processIncludes root with
      | .error e => .error e
      | .ok incls =>
        .ok { stem := stem
              xmlRoot := root
              type :=
                if pyStartsWith stem ("gl_") then ("glsl_var")
                else if pyStartsWith stem ("gl") then ("gl_func")
                else ("glsl_func")
              adocPath := stem ++ (".adoc")
              abstractText := (processHeader root).1
              hdrFuncNames := (processHeader root).2
              funcs := some funcs
              citations := processCitations root
              includes := incls }
  else
    match processIncludes root with
    | .error e => .error e
    | .ok incls =>
      .ok { stem := stem
            xmlRoot := root
            type := ("included")
            adocPath := ("_inc_") ++ stem ++ (".adoc")
            abstractText := none
            hdrFuncNames := none
            funcs := none
            citations := processCitations root
            includes := incls }

/-! ### `collate.py`: `Collate` -/

/-- A directory entry as `os.scandir` presents it, together with the
outcome of `etree.parse` on the file: `none` models a file whose parse
raises `XMLSyntaxError`, `some root` a well-formed file with the given
root element. -/
structure DirEntry : Type where
  name : String
  isFile : Bool
  parseResult : Option Elem

/-- A Python `dict` keyed by strings: an association list with unique
keys; insertion of an existing key updates it in place. -/
def dictInsert {α : Type} (d : List (String × α)) (k : String) (v : α) :
    List (String × α) :=
  if d.any (fun p => p.1 == k) then
    d.map (fun p => if p.1 == k then (k, v) else p)
  else d ++ [(k, v)]

def dictHasKey {α : Type} (d : List (String × α)) (k : String) : Bool :=
  d.any (fun p => p.1 == k)

def dictLookup {α : Type} (d : List (String × α)) (k : String) : Option α :=
  (d.find? (fun p => p.1 == k)).map (fun p => p.2)

/-- The candidate filter of `Collate.__init__`: regular files whose
lower-cased name ends in `.xml` and whose exact name is not an ignored
boilerplate name. -/
def collateCandidates (entries : List DirEntry) : List DirEntry :=
  entries.filter (fun e =>
    e.isFile && pyEndsWith (pyLower e.name) (".xml")
      && !(ignoredIncludes.contains e.name))

/-- `Collate._collate_docbook`: parse, then build a `MainFile`.  An
`XMLSyntaxError` is caught and logged, and the method falls through
returning Python `None` — modelled as `.ok none`.  Exceptions raised by
`MainFile.__init__` are not caught. -/
def collateDocbook (e : DirEntry) : Except PyErr (Option MainFile) :=
  match e.parseResult with
  | none => .ok none
  | some root =>
    match mkMainFile (pathStem e.name) root with
    | .error er => .error er
    | .ok m => .ok (some m)

/-- The `self._all_files` list comprehension: one entry per candidate,
`none` for each file whose parse failed. -/
def collateList : List DirEntry → Except PyErr (List (Option MainFile))
  | [] => .ok []
  | e :: rest =>
    match collateDocbook e with
    | .error er => .error er
    | .ok of =>
      match collateList rest with
      | .error er => .error er
      | .ok l => .ok (of :: l)

/-- `self._all_files` for a directory. -/
def collateAllFiles (entries : List DirEntry) : Except PyErr (List (Option MainFile)) :=
  collateList (collateCandidates entries)

/-- The iteration `file.name() for file in self._all_files`: the first
`None` in the list raises `AttributeError` (`'NoneType' object has no
attribute 'name'`). -/
def extractFiles : List (Option MainFile) → Except PyErr (List MainFile)
  | [] => .ok []
  | none :: _ => .error (.attributeError ("name"))
  | some m :: rest =>
    match extractFiles rest with
    | .error e => .error e
    | .ok l => .ok (m :: l)

/-- The three diagnostic lists printed by `Collate._verify_collation`:
dangling includes `(file, include)`, orphaned include files, and
dangling citations `(file, citation)`. -/
structure CollationDiags : Type where
  missingIncludes : List (String × String)
  filesNotIncluded : List String
  uncitedFiles : List (String × String)
deriving Repr, DecidableEq

/-- `Collate._verify_collation`.  `self._by_type["included"]` raises
`KeyError` when no collated file has type `included`; otherwise the
three inconsistency lists are computed and logged. -/
def verifyCollation (files : List MainFile)
    (byType : List (String × List (String × MainFile)))
    (allByName : List (String × MainFile)) : Except PyErr CollationDiags :=
  match dictLookup byType ("included") with
  | none => .error (.keyError ("included"))
  | some includeList =>
    let missingIncludes := files.flatMap (fun f =>
      f.includes.filterMap (fun incl =>
        if dictHasKey includeList incl then none else some (f.stem, incl)))
    let includedSet := files.flatMap (fun f => f.includes)
    let filesNotIncluded := (includeList.map (fun p => p.1)).filter
      (fun n => !(includedSet.contains n))
    let uncitedFiles := files.flatMap (fun f =>
      f.citations.filterMap (fun c =>
        if dictHasKey allByName c then none else some (f.stem, c)))
    .ok { missingIncludes := missingIncludes
          filesNotIncluded := filesNotIncluded
          uncitedFiles := uncitedFiles }

/-- The data held by a successfully constructed `Collate`. -/
structure Collation : Type where
  allFiles : List MainFile
  allByName : List (String × MainFile)
  byType : List (String × List (String × MainFile))
  diags : CollationDiags

/-- `Collate.__init__(doc_dir_path)`: collate every candidate, index by
name, partition by type, and verify.  (A Python `set` iterates in an
unspecified order; the model takes the types in first-occurrence order,
which affects only the ordering of the `_by_type` keys.) -/
def collateInit (entries : List DirEntry) : Except PyErr Collation :=
  match collateAllFiles entries with
  | .error e => .error e
  | .ok allFiles =>
    match extractFiles allFiles with
    | .error e => .error e
    | .ok files =>
      let allByName := files.foldl (fun d m => dictInsert d m.stem m) []
      let typeKeys := dedupKeepFirst (files.map (fun f => f.type))
      let byType := typeKeys.map (fun ty =>
        (ty, (files.filter (fun f => f.type == ty)).foldl
          (fun d m => dictInsert d m.stem m) []))
      match verifyCollation files byType allByName with
      | .error e => .error e
      | .ok diags =>
        .ok { allFiles := files
              allByName := allByName
              byType := byType
              diags := diags }

/-! ### `convert.py`: tree surgery -/

/-- `_replace_element_text(node, new_text)`, viewed from the parent:
the node is `parent.children[i]`.  The node's tail (or `""`) is glued
after `new_text`; the combined text is appended to the previous
sibling's tail when one exists (`node.getprevious()`), otherwise to the
parent's `.text`; the node is then removed. -/
def replaceElementText (parent : Elem) (i : Nat) (newText : String) : Elem :=
  match parent.children.get? i with
  | none => parent
  | some node =>
    let tailText := node.tail.getD ("")
    if i == 0 then
      .mk parent.tag parent.attrs
        (some (parent.text.getD ("") ++ newText ++ tailText))
        (parent.children.eraseIdx 0) parent.tail
    else
      match parent.children.get? (i - 1) with
      | none => parent
      | some prev =>
        let prev2 := prev.withTail
          (some (prev.tail.getD ("") ++ newText ++ tailText))
        .mk parent.tag parent.attrs parent.text
          ((parent.children.set (i - 1) prev2).eraseIdx i) parent.tail

/-! ### `convert.py`: structural rewrites -/

/-- The replacement see-also block built by `_replace_seealso`: same
tag, `xml:id='seealso'`, a "See Also" title and a sentinel paragraph,
keeping the old node's tail. -/
def mkSeealsoElem (old : Elem) : Elem :=
  .mk old.tag [(xmlIdKey, ("seealso"))] none
    [.mk (dbTag ("title")) [] (some ("See Also")) [] (some ("\n\t\t")),
     .mk (dbTag ("para")) [] (some ("SEEALSO_TEXT_REPLACEMENT")) [] (some ("\n\t"))]
    old.tail

mutual

/-- `_replace_seealso` applied to every element of
`descendant::*[@xml:id = 'seealso']` (the query is materialised before
any mutation, so a replacement block — and anything detached inside a
replaced node — is not itself revisited). -/
def rewriteSeealso : Elem → Elem
  | .mk tg at_ tx ch tl => .mk tg at_ tx (rewriteSeealsoList ch) tl

def rewriteSeealsoList : List Elem → List Elem
  | [] => []
  | c :: rest =>
    (if attrOf c xmlIdKey == some ("seealso") then mkSeealsoElem c
     else rewriteSeealso c) :: rewriteSeealsoList rest

end

/-- `_parse_version_from_xpointer`: extract the quoted role value, or
fall back to the raw pointer string.  (The GLSL adjustment is an
unimplemented TODO in the source; `main_file` is otherwise unused.) -/
def parseVersionFromXpointer (xptr : String) : String :=
  match reRoleSearch xptr with
  | some ver => ver
  | none => xptr

/-- The XPath `descendant::db:row/db:entry`
(`_xpath_version_func_names`) relative to a version node. -/
def versionFuncEntries (vnode : Elem) : List Elem :=
  chain (descendantsTagged vnode (dbTag ("row"))) (dbTag ("entry"))

/-- The function-name column of a version table: `"".join` of each
entry's `descendant::text()`. -/
def versionFuncs (vnode : Elem) : List String :=
  (versionFuncEntries vnode).map (fun e => pyJoin (subtreeTexts e))

/-- The XPath `descendant::db:row/xi:include/@xpointer`
(`_xpath_version_func_xptr`): the attribute axis skips nodes without
the attribute. -/
def versionXptrs (vnode : Elem) : List String :=
  (chain (descendantsTagged vnode (dbTag ("row"))) (xiTag ("include"))).filterMap
    (fun n => attrOf n ("xpointer"))

/-- One per-row version paragraph, as built inside the
`for func, xptr in zip(funcs, xptrs)` loop. -/
def mkVersionPara (func xptr : String) : Elem :=
  .mk (dbTag ("para")) []
    (some (("VERSION OF '") ++ func ++ ("' FOR '") ++ xptr ++ ("'"))) []
    (some ("\n\t\t"))

/-- The replacement version block built by `_replace_versions` for one
version node: title, start delimiter, one paragraph per `zip`ped
(function name, parsed pointer) pair, end delimiter. -/
def replaceVersionsNode (vnode : Elem) : Elem :=
  .mk vnode.tag [(xmlIdKey, ("versions"))] none
    ([.mk (dbTag ("title")) [] (some ("Versions")) [] (some ("\n\t\t")),
      .mk (dbTag ("para")) [] (some ("VERSION_START_DELIMETER")) [] (some ("\n\t\t"))]
      ++ (((versionFuncs vnode).zip
            ((versionXptrs vnode).map parseVersionFromXpointer)).map
          (fun p => mkVersionPara p.1 p.2))
      ++ [.mk (dbTag ("para")) [] (some ("VERSION_END_DELIMETER")) [] (some ("\n\t"))])
    vnode.tail

mutual

/-- `_replace_versions` applied to every element of
`descendant::*[@xml:id = 'versions']`. -/
def rewriteVersions : Elem → Elem
  | .mk tg at_ tx ch tl => .mk tg at_ tx (rewriteVersionsList ch) tl

def rewriteVersionsList : List Elem → List Elem
  | [] => []
  | c :: rest =>
    (if attrOf c xmlIdKey == some ("versions") then replaceVersionsNode c
     else rewriteVersions c) :: rewriteVersionsList rest

end

/-- The replacement synopsis section built by `_replace_synopsis`:
a `db:refsect1` with a "Functions" title and a sentinel paragraph,
keeping the replaced node's tail. -/
def mkSynopsisElem (tl : Option String) : Elem :=
  .mk (dbTag ("refsect1")) [] none
    [.mk (dbTag ("title")) [] (some ("Functions")) [] (some ("\n\t\t")),
     .mk (dbTag ("para")) [] (some ("FUNCSYNOPSIS_TEXT_REPLACEMENT")) [] (some ("\n\t"))]
    tl

mutual

/-- Replace the first descendant (document order) with the given tag by
`nw`, returning `none` when no such descendant exists. -/
def replaceFirstTagged (e : Elem) (tg : String) (nw : Elem) : Option Elem :=
  match e with
  | .mk tg0 at0 tx0 ch0 tl0 =>
    match replaceFirstTaggedList ch0 tg nw with
    | some ch1 => some (.mk tg0 at0 tx0 ch1 tl0)
    | none => none

def replaceFirstTaggedList : List Elem → String → Elem → Option (List Elem)
  | [], _, _ => none
  | c :: rest, tg, nw =>
    if c.tag == tg then some (nw :: rest)
    else
      match replaceFirstTagged c tg nw with
      | some c2 => some (c2 :: rest)
      | none =>
        match replaceFirstTaggedList rest tg nw with
        | some rest2 => some (c :: rest2)
        | none => none

end

/-- `_replace_synopsis`: `_xpath_synopsis(xml_root)[0]` raises
`IndexError` when the tree has no `descendant::db:refsynopsisdiv`;
otherwise that first synopsis division is wholesale replaced. -/
def replaceSynopsis (root : Elem) : Except PyErr Elem :=
  match (descendantsTagged root (dbTag ("refsynopsisdiv"))).head? with
  | none => .error .indexError
  | some syn =>
    .ok ((replaceFirstTagged root (dbTag ("refsynopsisdiv"))
      (mkSynopsisElem syn.tail)).getD root)

mutual

/-- Removal of every `descendant::db:citerefentry` with
`preserve_text=True`: each citation node's inner text (plus its tail)
is spliced into the surrounding text stream per
`_replace_element_text`, in document order. -/
def removeCitationsIn : Elem → Elem
  | .mk tg at_ tx ch tl =>
    match removeCitationsHead tx ch with
    | (tx2, ch2) => .mk tg at_ tx2 ch2 tl

/-- Children processing while no earlier sibling survives: a removed
citation's text lands in the parent's `.text`. -/
def removeCitationsHead (parText : Option String) :
    List Elem → Option String × List Elem
  | [] => (parText, [])
  | c :: rest =>
    if c.tag == dbTag ("citerefentry") then
      removeCitationsHead
        (some (parText.getD ("") ++ itertextNoTail c ++ c.tail.getD (""))) rest
    else
      (parText, removeCitationsTail (removeCitationsIn c) rest)

/-- Children processing after a surviving sibling `prev`: a removed
citation's text lands in `prev`'s tail. -/
def removeCitationsTail (prev : Elem) : List Elem → List Elem
  | [] => [prev]
  | c :: rest =>
    if c.tag == dbTag ("citerefentry") then
      removeCitationsTail
        (prev.withTail (some (prev.tail.getD ("") ++ itertextNoTail c
          ++ c.tail.getD ("")))) rest
    else
      prev :: removeCitationsTail (removeCitationsIn c) rest

end

/-! ### `convert.py`: `transform_docbook` -/

/-- The pure rewrite pipeline of `transform_docbook` applied to one
tree: synopsis replacement (whose `IndexError` aborts the rewrite
before anything is written), see-also replacement, version replacement,
citation removal. -/
def transformTree (root : Elem) : Except PyErr Elem :=
  match replaceSynopsis root with
  | .error e => .error e
  | .ok r1 => .ok (removeCitationsIn (rewriteVersions (rewriteSeealso r1)))

/-- `transform_docbook(dest_dir, main_file)`: rewrite a deep copy of
the record's tree and serialise it as `name + ".xml"`.  The `.ok`
result carries the written file's name and content tree; `.error`
models an exception raised before `ElementTree.write` runs, so no
output file exists. -/
def transformDocbook (m : MainFile) : Except PyErr (String × Elem) :=
  match transformTree m.xmlRoot with
  | .error e => .error e
  | .ok t => .ok (m.stem ++ (".xml"), t)

/-! ### The object heap view of `transform_docbook`

Python trees are mutable heap objects; `main_file.copy_xml()` is
`copy.deepcopy(self._xml_root)`.  To state what the rewrite does to the
*canonical* stored tree, trees live in an explicit heap of cells and
the record holds a cell reference; `copy_xml` allocates a fresh cell
holding the same value, and each in-place mutation step of
`transform_docbook` updates the cell it aliases. -/

structure PyHeap : Type where
  cells : List Elem

/-- `main_file.copy_xml()`: allocate a fresh cell with a deep copy of
the referenced tree, returning the new heap and the new reference. -/
def copyXml (h : PyHeap) (r : Nat) : PyHeap × Nat :=
  (⟨h.cells ++ [h.cells.getD r emptyElem]⟩, h.cells.length)

/-- `transform_docbook` with the heap explicit: `rootRef` is the
record's `_xml_root` reference and `stem` its base name.  Each rewrite
stage mutates the copied cell in place; the result is the final heap
and the written file name (or the propagated exception). -/
def transformDocbookH (h : PyHeap) (rootRef : Nat) (stem : String) :
    PyHeap × Except PyErr String :=
  let alloc := copyXml h rootRef
  let h1 := alloc.1
  let c := alloc.2
  match replaceSynopsis (h1.cells.getD c emptyElem) with
  | .error e => (h1, .error e)
  | .ok t1 =>
    let h2 : PyHeap := ⟨h1.cells.set c t1⟩
    let h3 : PyHeap := ⟨h2.cells.set c (rewriteSeealso (h2.cells.getD c emptyElem))⟩
    let h4 : PyHeap := ⟨h3.cells.set c (rewriteVersions (h3.cells.getD c emptyElem))⟩
    let h5 : PyHeap := ⟨h4.cells.set c (removeCitationsIn (h4.cells.getD c emptyElem))⟩
    (h5, .ok (stem ++ (".xml")))

/-! ### Concrete fixtures -/

/-- A minimal well-formed reference entry: a `db:refentry` root with no
children (hence no abstract, no synopsis, no citations, no includes). -/
def docEmptyRefentry : Elem := .mk (dbTag ("refentry")) [] none [] none

/-- The record `MainFile.__init__` builds for `docEmptyRefentry` with
stem `glFoo`. -/
def recGlFoo : MainFile :=
  { stem := ("glFoo")
    xmlRoot := docEmptyRefentry
    type := ("gl_func")
    adocPath := ("glFoo.adoc")
    abstractText := none
    hdrFuncNames := none
    funcs := some []
    citations := []
    includes := [] }

/-- Directory entry for a well-formed `glFoo.xml`. -/
def entryGlFoo : DirEntry :=
  { name := ("glFoo.xml"), isFile := true, parseResult := some docEmptyRefentry }

/-- Directory entry for a `bad.xml` whose parse raises
`XMLSyntaxError`. -/
def entryBad : DirEntry :=
  { name := ("bad.xml"), isFile := true, parseResult := none }

/-- The first `db:parameter` child used by the parameter fixtures. -/
def paramNameV4 : Elem :=
  .mk (dbTag ("parameter")) [] (some ("v[4]")) [] none

/-- A `db:paramdef` with declaration text `GLint ` and parameter name
`v[4]` (array suffix in the name). -/
def paramdefArray : Elem :=
  .mk (dbTag ("paramdef")) [] (some ("GLint ")) [paramNameV4] none

/-- A `db:paramdef` whose parameter name `v][4]` triggers both the
array-suffix extraction and the stray-bracket strip. -/
def paramdefArrayStray : Elem :=
  .mk (dbTag ("paramdef")) [] (some ("GLint "))
    [.mk (dbTag ("parameter")) [] (some ("v][4]")) [] none] none

/-- A reference entry with no `db:refnamediv` (hence no abstract text)
but with a synopsis declaring the function `glFoo`. -/
def docNoAbstract : Elem :=
  .mk (dbTag ("refentry")) [] none
    [.mk (dbTag ("refsynopsisdiv")) [] none
      [.mk (dbTag ("funcsynopsis")) [] none
        [.mk (dbTag ("funcprototype")) [] none
          [.mk (dbTag ("funcdef")) [] (some ("void "))
            [.mk (dbTag ("function")) [] (some ("glFoo")) [] none] none] none]
        none] none] none

/-- A version table with three rows: three `db:entry` function names
but only two `xi:include` cross-reference pointers. -/
def versionsFixture : Elem :=
  .mk (dbTag ("refsect1")) [(xmlIdKey, ("versions"))] none
    [.mk (dbTag ("row")) [] none
      [.mk (dbTag ("entry")) [] (some ("glA")) [] none,
       .mk (xiTag ("include"))
         [(("xpointer"), ("xpointer(/*[@role='3.0'])"))] none [] none] none,
     .mk (dbTag ("row")) [] none
      [.mk (dbTag ("entry")) [] (some ("glB")) [] none,
       .mk (xiTag ("include")) [(("xpointer"), ("ptrB"))] none [] none] none,
     .mk (dbTag ("row")) [] none
      [.mk (dbTag ("entry")) [] (some ("glC")) [] none] none]
    none

/-- A reference entry that does contain a synopsis division. -/
def docWithSynopsis : Elem :=
  .mk (dbTag ("refentry")) [] none
    [.mk (dbTag ("refsynopsisdiv")) [] none [] (some ("\n"))] none

/-- A `MainFile` for an included fragment (no synopsis division
anywhere in its tree). -/
def mFragment : MainFile :=
  { stem := ("funchead")
    xmlRoot := .mk (dbTag ("para")) [] (some ("boilerplate")) [] none
    type := ("included")
    adocPath := ("_inc_funchead.adoc")
    abstractText := none
    hdrFuncNames := none
    funcs := none
    citations := []
    includes := [] }

/-- A `MainFile` whose tree is `docWithSynopsis`. -/
def mWithSynopsis : MainFile :=
  { stem := ("glFoo")
    xmlRoot := docWithSynopsis
    type := ("gl_func")
    adocPath := ("glFoo.adoc")
    abstractText := none
    hdrFuncNames := none
    funcs := some []
    citations := []
    includes := [] }

/-- The paragraphs between the start and end delimiters of a rebuilt
version block: everything after the title and start paragraph, minus
the final end paragraph. -/
def versionParagraphs (e : Elem) : List Elem :=
  (e.children.drop 2).dropLast

/-- The classification field of a construction result (`none` when
construction raised). -/
def mainFileType : Except PyErr MainFile → Option String
  | .ok m => some m.type
  | .error _ => none

/-- The record `MainFile.__init__` builds for `docEmptyRefentry` with
stem `gl_PointSize`. -/
def recGlPointSize : MainFile :=
  { stem := ("gl_PointSize")
    xmlRoot := docEmptyRefentry
    type := ("glsl_var")
    adocPath := ("gl_PointSize.adoc")
    abstractText := none
    hdrFuncNames := none
    funcs := some []
    citations := []
    includes := [] }

/-- The record `MainFile.__init__` builds for `docNoAbstract` with stem
`glFoo`: the early return of `_process_header` leaves both
`_abstract_text` and `_hdr_func_names` unset, although the synopsis
prototypes are still extracted. -/
def recNoAbstract : MainFile :=
  { stem := ("glFoo")
    xmlRoot := docNoAbstract
    type := ("gl_func")
    adocPath := ("glFoo.adoc")
    abstractText := none
    hdrFuncNames := none
    funcs := some [{ name := ("glFoo"), returnValue := ("void"), params := [] }]
    citations := []
    includes := [] }

/-- A child node for the tree-surgery fixture. -/
def nodeOnly : Elem := .mk ("c") [] (some ("x")) [] none

/-- A parent with no text and the single child `nodeOnly`. -/
def parentOnly : Elem := .mk ("p") [] none [nodeOnly] none

/-! ## Theorems -/

/-- C6: for every parameter-definition node with no text content at all
(`paramdef.text` is `None`), `FuncDecl._parse_parameter` returns the
void-sentinel record: `type` is `"void"` and the dictionary carries no
`name` key and no `optional` key. -/
theorem parameter_void_sentinel (tg : String) (at_ : List (String × String))
    (ch : List Elem) (tl : Option String) :
    parseParameter (.mk tg at_ none ch tl) =
      .ok { type := ("void"), name := none, optional := none } := rfl

/-- C5: a parameter name ending in a bracketed suffix is split — the
identifier stays in the name, the bracket group moves onto the type:
`parse("GLint", "v[4]")` gives type `GLint[4]`, name `v`, optional
`false`; and when the stray-bracket strip also applies, array-suffix
extraction runs first (the general clause: the regex split is applied
to the name, the suffix is appended to the type, and only then is a
remaining trailing `]` stripped). -/
theorem parameter_array_suffix :
    parseParameter paramdefArray =
      .ok { type := ("GLint[4]"), name := some ("v"), optional := some false } ∧
    parseParameter paramdefArrayStray =
      .ok { type := ("GLint[4]"), name := some ("v"), optional := some false } ∧
    ∀ (pd nameNode : Elem) (restC : List Elem) (t nm g1 g2 : String),
      pd.text = some t →
      pyStartsWith (pyStrip t) ("[") = false →
      childrenTagged pd (dbTag ("parameter")) = nameNode :: restC →
      nameNode.text = some nm →
      reNameArray (pyStrip nm) = some (g1, g2) →
      parseParameter pd =
        .ok { type := pyStrip t ++ g2
              name := some (if pyEndsWith g1 ("]") then pyDropRight g1 1 else g1)
              optional := some false } := by
  refine ⟨rfl, rfl, ?_⟩
  intro pd nameNode restC t nm g1 g2 ht hopt hch hnm hre
  unfold parseParameter
  rw [ht]
  simp only [hch, hnm, hre, hopt]
  simp

/-- Witness for C5 at the concrete fixture. -/
theorem parameter_array_suffix_witness :
    parseParameter paramdefArray =
      .ok { type := pyStrip ("GLint ") ++ ("[4]")
            name := some (if pyEndsWith ("v") ("]") then pyDropRight ("v") 1 else ("v"))
            optional := some false } :=
  parameter_array_suffix.2.2 paramdefArray paramNameV4 [] ("GLint ") ("v[4]")
    ("v") ("[4]") rfl (by decide) rfl rfl (by decide)

/-- Dropping the last element of a list with a single appended element. -/
theorem dropLast_append_singleton {α : Type} (l : List α) (a : α) :
    (l ++ [a]).dropLast = l := by
  induction l with
  | nil => rfl
  | cons b t ih => cases t <;> simp_all [List.dropLast]

/-- Positional indexing through `map` over `zip`. -/
theorem zipMap_getD {α β γ : Type} (f : α → β → γ) (dc : γ) (da : α) (db : β) :
    ∀ (l1 : List α) (l2 : List β) (i : Nat), i < (l1.zip l2).length →
      ((l1.zip l2).map (fun p => f p.1 p.2)).getD i dc =
        f (l1.getD i da) (l2.getD i db) := by
  intro l1
  induction l1 with
  | nil => intro l2 i h; simp [List.zip] at h
  | cons a t ih =>
    intro l2 i h
    cases l2 with
    | nil => simp [List.zip] at h
    | cons b t2 =>
      cases i with
      | zero => simp [List.zip]
      | succ j =>
        simp only [List.zip_cons_cons, List.length_cons, Nat.succ_lt_succ_iff] at h
        simpa [List.zip] using ih t2 j h

/-- C4: the rebuilt version block contains exactly `min(m, n)` per-row
version paragraphs — the `zip` of the `m` row function names with the
`n` parsed cross-reference pointers — pairing row `i`'s name with row
`i`'s pointer positionally and silently dropping the extras of the
longer sequence; the fixture with 3 name rows and 2 pointers yields
exactly 2 version paragraphs. -/
theorem versions_zip_truncates :
    (∀ v : Elem,
      versionParagraphs (replaceVersionsNode v) =
        ((versionFuncs v).zip ((versionXptrs v).map parseVersionFromXpointer)).map
          (fun p => mkVersionPara p.1 p.2) ∧
      (versionParagraphs (replaceVersionsNode v)).length =
        min (versionFuncs v).length (versionXptrs v).length ∧
      (∀ i, i < (versionParagraphs (replaceVersionsNode v)).length →
        (versionParagraphs (replaceVersionsNode v)).getD i emptyElem =
          mkVersionPara ((versionFuncs v).getD i (""))
            (parseVersionFromXpointer ((versionXptrs v).getD i ("")))))
    ∧ (versionFuncs versionsFixture).length = 3
    ∧ (versionXptrs versionsFixture).length = 2
    ∧ (versionParagraphs (replaceVersionsNode versionsFixture)).length = 2 := by
  refine ⟨?_, by decide, by decide, by decide⟩
  intro v
  have hpara : versionParagraphs (replaceVersionsNode v) =
      ((versionFuncs v).zip ((versionXptrs v).map parseVersionFromXpointer)).map
        (fun p => mkVersionPara p.1 p.2) := by
    unfold versionParagraphs replaceVersionsNode
    simp only [Elem.children, List.append_assoc, List.cons_append, List.nil_append,
      List.drop_succ_cons, List.drop_zero]
    exact dropLast_append_singleton _ _
  refine ⟨hpara, ?_, ?_⟩
  · rw [hpara]
    simp [List.length_zip]
  · intro i hi
    rw [hpara] at hi ⊢
    have h2 : i < ((versionFuncs v).zip
        ((versionXptrs v).map parseVersionFromXpointer)).length := by
      simpa using hi
    rw [zipMap_getD mkVersionPara emptyElem ("") ("") _ _ i h2]
    have h3 : i < (versionXptrs v).length := by
      rw [List.length_zip, List.length_map] at h2
      omega
    congr 1
    rw [List.getD_eq_getElem?_getD, List.getD_eq_getElem?_getD, List.getElem?_map]
    cases hx : (versionXptrs v)[i]? with
    | none =>
      rw [List.getElem?_eq_none_iff] at hx
      omega
    | some x => simp

/-- Witness for C4: positional pairing at index 0 of the fixture, via
the theorem. -/
theorem versions_zip_truncates_witness :
    (versionParagraphs (replaceVersionsNode versionsFixture)).getD 0 emptyElem =
      mkVersionPara ((versionFuncs versionsFixture).getD 0 (""))
        (parseVersionFromXpointer ((versionXptrs versionsFixture).getD 0 (""))) :=
  (versions_zip_truncates.1 versionsFixture).2.2 0 (by decide)

/-- C7: classification of a reference entry is decided by base-name
prefix with exact precedence — `gl_` first (the `glsl_var`
classification, the spec's gl-variable), then `gl` (`gl_func`, the
spec's gl-function), else `glsl_func` (the spec's glsl-function) — so
`gl_PointSize` is a variable, `glFoo` a GL function, and `mix` a GLSL
function. -/
theorem classification_prefix_order :
    (∀ (stem : String) (root : Elem) (m : MainFile),
      root.tag = dbTag ("refentry") →
      mkMainFile stem root = .ok m →
      ((pyStartsWith stem ("gl_") = true → m.type = ("glsl_var")) ∧
       (pyStartsWith stem ("gl_") = false → pyStartsWith stem ("gl") = true →
          m.type = ("gl_func")) ∧
       (pyStartsWith stem ("gl_") = false → pyStartsWith stem ("gl") = false →
          m.type = ("glsl_func")))) ∧
    mainFileType (mkMainFile ("gl_PointSize") docEmptyRefentry) = some ("glsl_var") ∧
    mainFileType (mkMainFile ("glFoo") docEmptyRefentry) = some ("gl_func") ∧
    mainFileType (mkMainFile ("mix") docEmptyRefentry) = some ("glsl_func") := by
  refine ⟨?_, rfl, rfl, rfl⟩
  intro stem root m hroot hok
  unfold mkMainFile at hok
  rw [hroot] at hok
  simp only [beq_self_eq_true, if_true] at hok
  cases hf : processFunctions root with
  | error e => rw [hf] at hok; exact absurd hok (by simp)
  | ok funcs =>
    rw [hf] at hok
    cases hi : processIncludes root with
    | error e => rw [hi] at hok; exact absurd hok (by simp)
    | ok incls =>
      rw [hi] at hok
      simp only [Except.ok.injEq] at hok
      subst hok
      refine ⟨fun h1 => by simp [h1], fun h1 h2 => by simp [h1, h2],
        fun h1 h2 => by simp [h1, h2]⟩

/-- Witness for C7: the general precedence clause applied at
`gl_PointSize`. -/
theorem classification_prefix_order_witness :
    recGlPointSize.type = ("glsl_var") :=
  (classification_prefix_order.1 ("gl_PointSize") docEmptyRefentry recGlPointSize
    rfl rfl).1 rfl

/-- C3 (counterexample): `docNoAbstract` has no abstract text but its
synopsis does declare the function name `glFoo`; `MainFile` construction
nevertheless leaves `_hdr_func_names` unset (the early return of
`_process_header` skips the extraction), refuting the claim that
declared function names are absent only when the header lacks a
synopsis of named functions. -/
theorem missing_abstract_skips_names_cex :
    headerAbstractTexts docNoAbstract = [] ∧
    headerFunctionNames docNoAbstract = [("glFoo")] ∧
    mkMainFile ("glFoo") docNoAbstract = .ok recNoAbstract ∧
    recNoAbstract.hdrFuncNames = none :=
  ⟨rfl, by decide, rfl, rfl⟩

/-- C3 (amended): when the abstract is missing, record construction
logs and returns early, leaving both the abstract and the declared
function names unset; declared function names are extracted exactly
when the abstract text is nonempty and the synopsis lists at least one
function name. -/
theorem header_abstract_gates_names :
    ∀ (stem : String) (root : Elem) (m : MainFile),
      root.tag = dbTag ("refentry") →
      mkMainFile stem root = .ok m →
      ((headerAbstractTexts root = [] →
          m.abstractText = none ∧ m.hdrFuncNames = none) ∧
       (headerAbstractTexts root ≠ [] →
          m.abstractText = some (reLineEndSub (pyJoin (headerAbstractTexts root))) ∧
          (headerFunctionNames root ≠ [] →
            m.hdrFuncNames = some (some (dedupKeepFirst (headerFunctionNames root)))) ∧
          (headerFunctionNames root = [] → m.hdrFuncNames = some none))) := by
  intro stem root m hroot hok
  unfold mkMainFile at hok
  rw [hroot] at hok
  simp only [beq_self_eq_true, if_true] at hok
  cases hf : processFunctions root with
  | error e => rw [hf] at hok; exact absurd hok (by simp)
  | ok funcs =>
    rw [hf] at hok
    cases hi : processIncludes root with
    | error e => rw [hi] at hok; exact absurd hok (by simp)
    | ok incls =>
      rw [hi] at hok
      simp only [Except.ok.injEq] at hok
      subst hok
      constructor
      · intro he
        simp [processHeader, he]
      · intro hne
        have hlen : ((headerAbstractTexts root).length == 0) = false := by
          cases hab : headerAbstractTexts root with
          | nil => exact absurd hab hne
          | cons a tl2 => simp
        refine ⟨by simp [processHeader, hlen]; split <;> rfl, ?_, ?_⟩
        · intro hfn
          have hflen : decide (0 < (headerFunctionNames root).length) = true := by
            cases hfb : headerFunctionNames root with
            | nil => exact absurd hfb hfn
            | cons a tl2 => simp
          simp [processHeader, hlen, hflen]
        · intro hfe
          simp [processHeader, hlen, hfe]

/-- Witness for C3's amended statement at the concrete fixture. -/
theorem header_abstract_gates_names_witness :
    recNoAbstract.abstractText = none ∧ recNoAbstract.hdrFuncNames = none :=
  (header_abstract_gates_names ("glFoo") docNoAbstract recNoAbstract rfl rfl).1 rfl

/-- C1: contrary to the claim, a directory whose files are all
well-formed reference entries with no cross-references does not yield a
completed collation with zero diagnostics — `Collate._verify_collation`
evaluates `self._by_type["included"]`, and with no file of type
`included` construction raises `KeyError` (likewise for an empty
directory).  The single file itself collates cleanly, with no includes
and no citations. -/
theorem collate_no_fragments_keyerror :
    collateAllFiles [entryGlFoo] = .ok [some recGlFoo] ∧
    recGlFoo.includes = [] ∧
    recGlFoo.citations = [] ∧
    collateInit [entryGlFoo] = .error (.keyError ("included")) ∧
    collateInit [] = .error (.keyError ("included")) :=
  ⟨rfl, rfl, rfl, rfl, rfl⟩

/-- C2: contrary to the claim, a file whose parse raises
`XMLSyntaxError` is not excluded from the collation —
`_collate_docbook` falls through returning `None`, the `None` is stored
in `_all_files`, and `Collate.__init__` then raises `AttributeError`
while building the name index, aborting the batch. -/
theorem parse_failure_aborts_collation :
    collateAllFiles [entryBad, entryGlFoo] = .ok [none, some recGlFoo] ∧
    collateInit [entryBad, entryGlFoo] = .error (.attributeError ("name")) :=
  ⟨rfl, rfl⟩

/-- C8: `_replace_element_text` appends the replacement text plus the
removed node's tail to the preceding sibling's tail when one exists,
and otherwise to the parent's leading text; in particular, removing the
only child of a text-less parent leaves the parent's leading text
exactly the replacement text, with the child list empty and no
missing-text artifacts. -/
theorem replace_element_text_splice :
    ∀ (parent node : Elem) (i : Nat) (nt : String),
      parent.children.get? i = some node →
      ((∀ prev, 0 < i → parent.children.get? (i - 1) = some prev →
          replaceElementText parent i nt =
            .mk parent.tag parent.attrs parent.text
              ((parent.children.set (i - 1)
                (prev.withTail (some (prev.tail.getD ("") ++ nt
                  ++ node.tail.getD (""))))).eraseIdx i)
              parent.tail) ∧
       (i = 0 →
          replaceElementText parent i nt =
            .mk parent.tag parent.attrs
              (some (parent.text.getD ("") ++ nt ++ node.tail.getD ("")))
              (parent.children.eraseIdx 0) parent.tail) ∧
       (i = 0 → parent.text = none → parent.children = [node] → node.tail = none →
          (replaceElementText parent i nt).text = some nt ∧
          (replaceElementText parent i nt).children = [])) := by
  intro parent node i nt h
  refine ⟨?_, ?_, ?_⟩
  · intro prev hpos hprev
    have h0 : (i == 0) = false := by
      simp only [beq_eq_false_iff_ne]
      omega
    unfold replaceElementText
    rw [h, h0, hprev]
    simp
  · intro h0
    subst h0
    unfold replaceElementText
    rw [h]
    simp
  · intro h0 htx hch htl
    subst h0
    unfold replaceElementText
    rw [h, htx]
    dsimp only
    rw [htl, hch]
    simp only [Option.getD_none, String.empty_append, String.append_empty,
      List.eraseIdx_cons_zero]
    exact ⟨rfl, rfl⟩

/-- Witness for C8 at the single-child fixture. -/
theorem replace_element_text_splice_witness :
    (replaceElementText parentOnly 0 ("T")).text = some ("T") ∧
    (replaceElementText parentOnly 0 ("T")).children = [] :=
  (replace_element_text_splice parentOnly nodeOnly 0 ("T") rfl).2.2 rfl rfl rfl rfl

/-- C10: the structural rewrite unconditionally indexes the first
function-synopsis division: when the tree has at least one
`db:refsynopsisdiv` descendant the lookup succeeds, and when it has
none `transform_docbook` fails with the out-of-range `IndexError`
before any output file is written (`.error` carries no output). -/
theorem transform_requires_synopsis :
    ∀ m : MainFile,
      (descendantsTagged m.xmlRoot (dbTag ("refsynopsisdiv")) ≠ [] →
        ∃ t, replaceSynopsis m.xmlRoot = .ok t) ∧
      (descendantsTagged m.xmlRoot (dbTag ("refsynopsisdiv")) = [] →
        transformDocbook m = .error .indexError) := by
  intro m
  constructor
  · intro hne
    unfold replaceSynopsis
    cases hh : (descendantsTagged m.xmlRoot (dbTag ("refsynopsisdiv"))).head? with
    | none =>
      rw [List.head?_eq_none_iff] at hh
      exact absurd hh hne
    | some syn => exact ⟨_, rfl⟩
  · intro he
    unfold transformDocbook transformTree replaceSynopsis
    rw [he]
    rfl

/-- Witness for C10: a fragment tree with no synopsis division fails,
and a tree with one succeeds. -/
theorem transform_requires_synopsis_witness :
    transformDocbook mFragment = .error .indexError ∧
    (∃ t, replaceSynopsis mWithSynopsis.xmlRoot = .ok t) :=
  ⟨(transform_requires_synopsis mFragment).2 rfl,
   (transform_requires_synopsis mWithSynopsis).1 (fun hh => List.noConfusion hh)⟩

/-- Auxiliary facts about one heap-level `transform_docbook` run: the
canonical cell is untouched, the outcome is a function of the canonical
tree's value alone, and the heap grows by exactly the one copied
cell. -/
theorem transformDocbookH_aux (h : PyHeap) (r : Nat) (stem : String)
    (hr : r < h.cells.length) :
    (transformDocbookH h r stem).1.cells[r]? = h.cells[r]? ∧
    (transformDocbookH h r stem).2 =
      (transformTree (h.cells.getD r emptyElem)).map (fun _ => stem ++ (".xml")) ∧
    (transformDocbookH h r stem).1.cells.length = h.cells.length + 1 := by
  have hne : h.cells.length ≠ r := by omega
  have hgt : (h.cells ++ [h.cells.getD r emptyElem]).getD h.cells.length emptyElem
      = h.cells.getD r emptyElem := by
    rw [List.getD_eq_getElem?_getD, List.getElem?_concat_length]
    rfl
  unfold transformDocbookH copyXml
  dsimp only
  rw [hgt]
  cases hs : replaceSynopsis (h.cells.getD r emptyElem) with
  | error e =>
    dsimp only
    rw [List.getD_eq_getElem?_getD] at hs
    refine ⟨List.getElem?_append_left hr, ?_, by simp⟩
    simp [transformTree, hs, Except.map]
  | ok t1 =>
    dsimp only
    rw [List.getD_eq_getElem?_getD] at hs
    refine ⟨?_, ?_, by simp⟩
    · rw [List.getElem?_set_ne hne, List.getElem?_set_ne hne,
        List.getElem?_set_ne hne, List.getElem?_set_ne hne,
        List.getElem?_append_left hr]
    · simp [transformTree, hs, Except.map]

/-- C9: the heap view of `transform_docbook` — which rewrites a
`copy.deepcopy` of the record's tree — never changes the canonical cell
the record references, whether the rewrite completes or fails; its
outcome is determined by the canonical tree's value, so a repeated
rewrite of the same record produces the same outcome. -/
theorem transform_preserves_canonical :
    ∀ (h : PyHeap) (r : Nat) (stem : String), r < h.cells.length →
      ((transformDocbookH h r stem).1.cells[r]? = h.cells[r]? ∧
       (transformDocbookH h r stem).2 =
         (transformTree (h.cells.getD r emptyElem)).map (fun _ => stem ++ (".xml")) ∧
       (transformDocbookH (transformDocbookH h r stem).1 r stem).2 =
         (transformDocbookH h r stem).2) := by
  intro h r stem hr
  obtain ⟨hcell, hout, hlen⟩ := transformDocbookH_aux h r stem hr
  refine ⟨hcell, hout, ?_⟩
  have hr2 : r < (transformDocbookH h r stem).1.cells.length := by
    rw [hlen]; omega
  obtain ⟨_, hout2, _⟩ := transformDocbookH_aux (transformDocbookH h r stem).1 r stem hr2
  rw [hout2, hout]
  have hsame : (transformDocbookH h r stem).1.cells.getD r emptyElem =
      h.cells.getD r emptyElem := by
    rw [List.getD_eq_getElem?_getD, List.getD_eq_getElem?_getD, hcell]
  rw [hsame]

/-- Witness for C9 at a one-cell heap holding a synopsis-free tree. -/
theorem transform_preserves_canonical_witness :
    (transformDocbookH ⟨[docEmptyRefentry]⟩ 0 ("glFoo")).1.cells[0]? =
      (PyHeap.mk [docEmptyRefentry]).cells[0]? :=
  ((transform_preserves_canonical ⟨[docEmptyRefentry]⟩ 0 ("glFoo")) (by decide)).1

end DbToAdoc
